import Mathlib

/-!
# A verification of the jsparser combinator engine

Shallow embedding of the jsparser repository (src/parsers.js, src/jsparser.js,
src/stringlexer.js).  The parse state is the mutable record threaded through
every parser: a token list, a cursor, the ast stack and an optional cut marker.
JavaScript parsers mutate the shared state and return it (truthy) on success or
`false` on failure; exceptions escape the whole attempt.  We model a parser as a
function from states to an explicit result:
* `ok s`       - the parser returned the (mutated) state,
* `fail s`     - the parser returned `false`, the shared state now being `s`,
* `cutAbort s` - `throw state` fired inside `restore` (the cut protocol),
* `err m`      - a thrown string: the fatal configuration-error channel.
-/

namespace JSParser

/-- A token produced by the lexer: `{name, text, cursor}`. -/
structure Token where
  name : String
  text : String
  cursor : Nat
deriving DecidableEq, Repr

/-- An element of the ast stack: a token, a constructed node
`{name, children}`, or an empty slot (a JS array hole, producible only by
setting `array.length` above the current length; no parser ever creates one). -/
inductive Elem where
  | tok : Token → Elem
  | node : String → List Elem → Elem
  | hole : Elem
deriving Repr

/-- The cut marker `{label, cursor}` set by `cut` (src/parsers.js line 73). -/
structure Cut where
  label : String
  cursor : Nat
deriving DecidableEq, Repr

/-- The parse state `{tokens, cursor, ast, cut}` threaded through every
parser (src/parsers.js; jsparser.js names the cursor `next` and the marker
field `at`, with identical semantics). -/
structure State where
  tokens : List Token
  cursor : Nat
  ast : List Elem
  cut : Option Cut
deriving Repr

/-- Outcome of running one parser on a state (see module docstring). -/
inductive PResult where
  | ok : State → PResult
  | fail : State → PResult
  | cutAbort : State → PResult
  | err : String → PResult
deriving Repr

def Parser : Type := State → PResult

/-- `keep` (src/parsers.js lines 13-20): if a token exists at the cursor,
push (a copy of) it on the ast and advance by one; else return false with
the state untouched. -/
def keep : Parser := fun s =>
  match s.tokens[s.cursor]? with
  | some t => .ok { s with ast := s.ast ++ [.tok t], cursor := s.cursor + 1 }
  | none => .fail s

/-- `skip` (src/parsers.js lines 26-33). -/
def skip : Parser := fun s =>
  match s.tokens[s.cursor]? with
  | some _ => .ok { s with cursor := s.cursor + 1 }
  | none => .fail s

/-- The boolean core of `is` (src/parsers.js line 41):
`state.tokens[state.cursor]?.name == name`. -/
def isTok (name : String) (s : State) : Bool :=
  match s.tokens[s.cursor]? with
  | some t => t.name == name
  | none => false

/-- `is` (src/parsers.js lines 40-42): the unchanged state if the current
token has the given name, else false. -/
def isP (name : String) : Parser := fun s =>
  if isTok name s then .ok s else .fail s

/-- `match` (src/parsers.js lines 49-51): `is(name, state) && keep(state)`. -/
def matchP (name : String) : Parser := fun s =>
  if isTok name s then keep s else .fail s

/-- `not` (src/parsers.js lines 58-60): `!is(name, state) && keep(state)`. -/
def notP (name : String) : Parser := fun s =>
  if isTok name s then .fail s else keep s

/-- `eat` (src/parsers.js lines 67-69): `is(name, state) && skip(state)`. -/
def eat (name : String) : Parser := fun s =>
  if isTok name s then skip s else .fail s

/-- `cut` (src/parsers.js lines 72-75): overwrite the cut marker with the
current cursor and succeed. -/
def cutP (label : String) : Parser := fun s =>
  .ok { s with cut := some ⟨label, s.cursor⟩ }

/-- `END` (src/parsers.js lines 81-84). -/
def END : Parser := fun s =>
  if s.tokens.length ≤ s.cursor then .ok s else .fail s

/-- Alternation `A(state) || B(state)`: on ordinary failure of the first
branch the second runs against the live state; success and thrown errors
short-circuit. -/
def orElse (p q : Parser) : Parser := fun s =>
  match p s with
  | .fail s' => q s'
  | r => r

/-- Sequencing `A(state) && B(state)`: the second branch runs only when the
first succeeded. -/
def andThen (p q : Parser) : Parser := fun s =>
  match p s with
  | .ok s' => q s'
  | r => r

/-- A saved checkpoint (src/parsers.js lines 189-195): the cursor and the
ast length at save time. -/
structure Saved where
  cursor : Nat
  astlen : Nat
deriving DecidableEq, Repr

/-- `save` (src/parsers.js lines 189-195). -/
def save (s : State) : Saved := ⟨s.cursor, s.ast.length⟩

/-- JS `array.length = n`: truncates when `n` is below the current length,
extends with empty slots otherwise. -/
def setLength (l : List Elem) (n : Nat) : List Elem :=
  if n ≤ l.length then l.take n else l ++ List.replicate (n - l.length) .hole

/-- The guard `state?.cut?.cursor >= saved_state.cursor` of `restore`
(src/parsers.js line 200): optional chaining makes the comparison false when
no cut marker is set. -/
def cutFires (sv : Saved) (s : State) : Bool :=
  match s.cut with
  | some c => sv.cursor ≤ c.cursor
  | none => false

/-- `restore` (src/parsers.js lines 198-206): if the live cut marker's
cursor is `>=` the checkpoint cursor, throw the live state; otherwise put
the cursor back, truncate the ast to the saved length, and return false. -/
def restore (sv : Saved) : Parser := fun s =>
  if cutFires sv s then .cutAbort s
  else .fail { s with cursor := sv.cursor, ast := setLength s.ast sv.astlen }

/-- `bt` (src/parsers.js lines 134-140): checkpoint, run the parser, and on
ordinary failure restore; thrown errors propagate. -/
def bt (p : Parser) : Parser := fun s =>
  match p s with
  | .ok s' => .ok s'
  | .fail s' => restore (save s) s'
  | r => r

/-- An action registered on a node parser: transforms the node or returns
falsy (`none`) to veto the match (src/parsers.js lines 178-186). -/
def Action : Type := Elem → Option Elem

/-- The action loop of `node` (src/parsers.js lines 159-163): thread the
node through the chain, stopping at the first falsy return. -/
def runActions : List Action → Elem → Option Elem
  | [], nd => some nd
  | a :: rest, nd =>
      match a nd with
      | some nd' => runActions rest nd'
      | none => none

/-- `node` with an explicit action list (src/parsers.js lines 149-174): the
JS function object carries a mutable `actions` array, initially empty, which
`action` appends to; here the list is a parameter.  On success of the inner
parser, when more than `count` elements were pushed past the checkpoint they
are sliced off, the ast truncated, the actions run, and the resulting node
pushed — a falsy action triggers `restore` on the already-truncated state.
On pass-through success (`<= count` pushed) the state is returned as-is.  On
failure, an ordinary `restore`. -/
def nodeFn (nm : String) (acts : List Action) (p : Parser) (count : Nat) : Parser := fun s =>
  let sv := save s
  match p s with
  | .ok s' =>
      if count < s'.ast.length - sv.astlen then
        let children := s'.ast.drop sv.astlen
        match runActions acts (.node nm children) with
        | some nd => .ok { s' with ast := setLength s'.ast sv.astlen ++ [nd] }
        | none => restore sv { s' with ast := setLength s'.ast sv.astlen }
      else .ok s'
  | .fail s' => restore sv s'
  | r => r

/-- `node(name, parser, count = 0)` as called by a grammar author: a fresh
node parser starts with no actions (src/parsers.js line 171). -/
def node (nm : String) (p : Parser) (count : Nat) : Parser :=
  nodeFn nm [] p count

/-- `cnode` (src/parsers.js line 176): `node(name, parser, 1)`. -/
def cnode (nm : String) (p : Parser) : Parser :=
  node nm p 1

/-- `many` of src/parsers.js lines 214-217: `while (parser(s)) {}; return s`.
The loop has no progress guard, so we index it by fuel; `none` means the
fuel ran out with the loop still spinning. -/
def manyP (p : Parser) : Nat → State → Option PResult
  | 0, _ => none
  | fuel + 1, s =>
      match p s with
      | .ok s' => manyP p fuel s'
      | .fail s' => some (.ok s')
      | .cutAbort s' => some (.cutAbort s')
      | .err m => some (.err m)

/-- The message thrown by `many` of src/jsparser.js lines 180-189.  The
source template interpolates a variable `cursor` that is not in scope, so at
run time a ReferenceError is thrown in its place; either way the loop aborts
through the thrown-error channel, never through ordinary parse failure. -/
def manyErrMsg : String :=
  "parser in many() succeeded without consuming any tokens"

/-- The guarded loop of `many` in src/jsparser.js lines 180-189: remember
the cursor, and after each successful inner run throw a fatal error if the
cursor did not move, else continue. -/
def manyJLoop (p : Parser) : Nat → Nat → State → Option PResult
  | 0, _, _ => none
  | fuel + 1, next, s =>
      match p s with
      | .ok s' =>
          if s'.cursor == next then some (.err manyErrMsg)
          else manyJLoop p fuel s'.cursor s'
      | .fail s' => some (.ok s')
      | .cutAbort s' => some (.cutAbort s')
      | .err m => some (.err m)

/-- `many` of src/jsparser.js: initialise the progress guard with the
current cursor. -/
def manyJ (p : Parser) (fuel : Nat) : State → Option PResult := fun s =>
  manyJLoop p fuel s.cursor s

theorem setLength_length (l : List Elem) (n : Nat) : (setLength l n).length = n := by
  unfold setLength
  split
  · simpa using by omega
  · simp; omega

theorem setLength_append_left (l m : List Elem) : setLength (l ++ m) l.length = l := by
  unfold setLength
  rw [if_pos (by simp)]
  simp [List.take_left]

/-- A one-token input and states over it, used to evaluate the theorems on
concrete data. -/
def tA : Token := ⟨"a", "a", 0⟩

def stA : State := ⟨[tA], 0, [], none⟩

def stPastEnd : State := ⟨[tA], 5, [], none⟩

def stCutAt2 : State := ⟨[tA], 3, [], some ⟨"L", 2⟩⟩

def stCutAt1 : State := ⟨[tA], 3, [], some ⟨"L", 1⟩⟩

/-- Claim C1: with an active cut marker recorded at token index `K`, a
restore whose checkpoint cursor is `≤ K` throws the live parse state (which
carries the cut label and `K`) as a terminal failure; a restore whose
checkpoint cursor is `> K` is an ordinary restore; and a thrown state
propagates unchanged through any enclosing alternation (`||`) or `bt`
level. -/
theorem restore_cut_fires (s : State) (sv : Saved) (lbl : String) (K : Nat)
    (hcut : s.cut = some ⟨lbl, K⟩) :
    (sv.cursor ≤ K → restore sv s = .cutAbort s) ∧
    (K < sv.cursor →
      restore sv s = .fail { s with cursor := sv.cursor, ast := setLength s.ast sv.astlen }) ∧
    (∀ p q : Parser, ∀ s₀ s₁ : State, p s₀ = .cutAbort s₁ →
      orElse p q s₀ = .cutAbort s₁ ∧ bt p s₀ = .cutAbort s₁) := by
  refine ⟨?_, ?_, ?_⟩
  · intro h
    simp [restore, cutFires, hcut, h]
  · intro h
    simp [restore, cutFires, hcut]
    omega
  · intro p q s₀ s₁ h
    exact ⟨by simp [orElse, h], by simp [bt, h]⟩

theorem restore_cut_fires_witness :
    restore ⟨2, 0⟩ stCutAt2 = .cutAbort stCutAt2 ∧
    restore ⟨3, 0⟩ stCutAt2 =
      .fail { stCutAt2 with cursor := 3, ast := setLength stCutAt2.ast 0 } :=
  ⟨(restore_cut_fires stCutAt2 ⟨2, 0⟩ "L" 2 rfl).1 (by decide),
   (restore_cut_fires stCutAt2 ⟨3, 0⟩ "L" 2 rfl).2.1 (by decide)⟩

/-- Claim C2: if the wrapped parser fails and no live cut marker sits at or
beyond the checkpoint cursor, `bt(p)` reports ordinary failure with the
cursor back at exactly its pre-call value and the ast stack at exactly its
pre-call length; if the wrapped parser succeeds, `bt(p)` succeeds with
whatever state it produced. -/
theorem bt_backtracks (p : Parser) (s : State) :
    (∀ s', p s = .ok s' → bt p s = .ok s') ∧
    (∀ s', p s = .fail s' → (∀ c, s'.cut = some c → c.cursor < s.cursor) →
      ∃ s'', bt p s = .fail s'' ∧ s''.cursor = s.cursor ∧ s''.ast.length = s.ast.length) := by
  constructor
  · intro s' h
    simp [bt, h]
  · intro s' h hno
    refine ⟨{ s' with cursor := s.cursor, ast := setLength s'.ast s.ast.length }, ?_, rfl,
      setLength_length s'.ast s.ast.length⟩
    simp only [bt, h, restore, save]
    rw [if_neg]
    cases hc : s'.cut with
    | none => simp [cutFires, hc]
    | some c =>
        have := hno c hc
        simp [cutFires, hc]
        omega

theorem bt_backtracks_witness :
    (bt (matchP "a") stA = .ok ⟨[tA], 1, [.tok tA], none⟩) ∧
    (∃ s'', bt (matchP "b") stA = .fail s'' ∧ s''.cursor = stA.cursor ∧
      s''.ast.length = stA.ast.length) :=
  ⟨(bt_backtracks (matchP "a") stA).1 ⟨[tA], 1, [.tok tA], none⟩ rfl,
   (bt_backtracks (matchP "b") stA).2 stA rfl (by intro c hc; simp [stA] at hc)⟩

/-- Claim C5: when a token exists at the cursor, `keep` pushes a copy of it
onto the ast stack, advances the cursor by exactly one and succeeds; when no
token exists there it fails with the state unchanged. -/
theorem keep_spec (s : State) :
    (∀ t, s.tokens[s.cursor]? = some t →
      keep s = .ok { s with ast := s.ast ++ [.tok t], cursor := s.cursor + 1 }) ∧
    (s.tokens[s.cursor]? = none → keep s = .fail s) := by
  constructor
  · intro t h
    simp [keep, h]
  · intro h
    simp [keep, h]

theorem keep_spec_witness :
    keep stA = .ok ⟨[tA], 1, [.tok tA], none⟩ ∧ keep stPastEnd = .fail stPastEnd :=
  ⟨(keep_spec stA).1 tA rfl, (keep_spec stPastEnd).2 rfl⟩

/-- Claim C8: a restore that does not fire the cut changes only the cursor
and the ast stack's length: the token list and the cut field are exactly
unchanged, so an active marker strictly below the checkpoint cursor survives
the backtrack. -/
theorem restore_frame (s : State) (sv : Saved)
    (hno : ∀ c, s.cut = some c → c.cursor < sv.cursor) :
    ∃ s', restore sv s = .fail s' ∧ s'.tokens = s.tokens ∧ s'.cut = s.cut ∧
      s'.cursor = sv.cursor ∧ s'.ast = setLength s.ast sv.astlen := by
  refine ⟨{ s with cursor := sv.cursor, ast := setLength s.ast sv.astlen },
    ?_, rfl, rfl, rfl, rfl⟩
  simp only [restore]
  rw [if_neg]
  cases hc : s.cut with
  | none => simp [cutFires, hc]
  | some c =>
      have := hno c hc
      simp [cutFires, hc]
      omega

theorem restore_frame_witness :
    ∃ s', restore ⟨2, 0⟩ stCutAt1 = .fail s' ∧ s'.tokens = stCutAt1.tokens ∧
      s'.cut = stCutAt1.cut ∧ s'.cursor = 2 ∧ s'.ast = setLength stCutAt1.ast 0 :=
  restore_frame stCutAt1 ⟨2, 0⟩
    (by intro c hc; cases Option.some.inj hc; decide)

/-- Claim C3: `node(name, p, minChildren)` checkpoints; when `p` succeeds
having pushed strictly more than `minChildren` elements, exactly the pushed
elements are removed and become the children of a single new node pushed in
their place; when the pushed count does not exceed `minChildren`, no node is
created and the pushed elements stay on the stack as-is; and `cnode(name,p)`
is exactly `node(name, p, 1)`. -/
theorem node_spec (nm : String) (p : Parser) (count : Nat) (s s' : State) (pushed : List Elem)
    (hok : p s = .ok s') (hast : s'.ast = s.ast ++ pushed) :
    (count < pushed.length →
      node nm p count s = .ok { s' with ast := s.ast ++ [.node nm pushed] }) ∧
    (pushed.length ≤ count → node nm p count s = .ok s') ∧
    (∀ nm' p', cnode nm' p' = node nm' p' 1) := by
  refine ⟨?_, ?_, fun _ _ => rfl⟩
  · intro h
    simp only [node, nodeFn, hok, save, hast]
    rw [if_pos (by simp; omega)]
    simp only [List.drop_left, runActions, setLength_append_left]
  · intro h
    simp only [node, nodeFn, hok, save, hast]
    rw [if_neg (by simp; omega)]

theorem node_spec_witness :
    node "N" (matchP "a") 0 stA = .ok ⟨[tA], 1, [.node "N" [.tok tA]], none⟩ ∧
    cnode "N" (matchP "a") stA = .ok ⟨[tA], 1, [.tok tA], none⟩ :=
  ⟨(node_spec "N" (matchP "a") 0 stA ⟨[tA], 1, [.tok tA], none⟩ [.tok tA] rfl rfl).1
      (by decide),
   (node_spec "N" (matchP "a") 1 stA ⟨[tA], 1, [.tok tA], none⟩ [.tok tA] rfl rfl).2.1
      (by decide)⟩

/-- Claim C9: the action chain of a node parser runs only when a node is
actually created: on a pass-through success (pushed count not exceeding the
threshold) the result is independent of the registered actions — in
particular a vetoing action cannot fail a pass-through match — while on a
node-creating success a vetoing action does trigger the checkpoint
restore. -/
theorem node_actions_spec (nm : String) (acts : List Action) (p : Parser) (count : Nat)
    (s s' : State) (pushed : List Elem)
    (hok : p s = .ok s') (hast : s'.ast = s.ast ++ pushed) :
    (pushed.length ≤ count → nodeFn nm acts p count s = .ok s') ∧
    (count < pushed.length →
      nodeFn nm ((fun _ => none) :: acts) p count s =
        restore ⟨s.cursor, s.ast.length⟩ { s' with ast := s.ast }) := by
  constructor
  · intro h
    simp only [nodeFn, hok, save, hast]
    rw [if_neg (by simp; omega)]
  · intro h
    simp only [nodeFn, hok, save, hast]
    rw [if_pos (by simp; omega)]
    simp only [runActions, setLength_append_left]

theorem node_actions_spec_witness :
    (nodeFn "N" [fun _ => none] (matchP "a") 1 stA = .ok ⟨[tA], 1, [.tok tA], none⟩) ∧
    (nodeFn "N" [fun _ => none] (matchP "a") 0 stA = .fail ⟨[tA], 0, [], none⟩) :=
  ⟨(node_actions_spec "N" [fun _ => none] (matchP "a") 1 stA
      ⟨[tA], 1, [.tok tA], none⟩ [.tok tA] rfl rfl).1 (by decide),
   (node_actions_spec "N" [] (matchP "a") 0 stA
      ⟨[tA], 1, [.tok tA], none⟩ [.tok tA] rfl rfl).2 (by decide)⟩

/-- Claim C4 (evaluation at the failing input): `cut(L)` always succeeds
without moving the cursor.  The `many` of src/parsers.js loops on it forever
— for every fuel bound the loop is still spinning — whereas the `many` of
src/jsparser.js throws its fatal configuration error on the first
iteration, on the thrown-error channel distinct from ordinary parse
failure. -/
theorem many_nonprogress (lbl : String) :
    (∀ fuel s, manyP (cutP lbl) fuel s = none) ∧
    (∀ fuel s, 0 < fuel → manyJ (cutP lbl) fuel s = some (.err manyErrMsg)) := by
  constructor
  · intro fuel
    induction fuel with
    | zero => intro s; rfl
    | succ n ih =>
        intro s
        simp only [manyP, cutP]
        exact ih _
  · intro fuel s h
    match fuel, h with
    | n + 1, _ => simp [manyJ, manyJLoop, cutP]

theorem many_nonprogress_witness :
    manyP (cutP "L") 5 stA = none ∧ manyJ (cutP "L") 5 stA = some (.err manyErrMsg) :=
  ⟨(many_nonprogress "L").1 5 stA, (many_nonprogress "L").2 5 stA (by decide)⟩

/-!
## The lexers

The regular-expression engine is external to the system (spec §1): the
scanner's `str.matchAll(re)` call is a black box producing an ordered list
of non-overlapping matches.  We embed the tokenizer loops of
src/jsparser.js (`Lexer.compile`, lines 341-401) and src/stringlexer.js
(`Lexer.compile`, lines 81-135) as functions of that match list, together
with the definition bookkeeping of the variadic Lexer (constructor,
`makedef`, `findtoken`, `compile`'s name/pattern collection).
-/

/-- One element of `str.matchAll(re)`: the match offset `m.index`, the
matched text `m[0]`, and the per-definition capture groups `m.slice(1)`
(`none` for a group that did not participate). -/
structure RMatch where
  index : Nat
  matched : String
  groups : List (Option String)
deriving DecidableEq, Repr

/-- A token as built by the tokenizer loops.  The name is optional because
`tokennames[tokenno]` is `undefined` when no capture group is truthy
(`findIndex` returned `-1`), which is exactly what happens on a zero-length
match. -/
structure LToken where
  name : Option String
  text : String
  cursor : Nat
deriving DecidableEq, Repr

/-- What a tokenizer run can throw: the unknown-span token (the default
`unknownhandler` throws its argument) or a string (the zero-length-match
configuration error). -/
inductive LexErr where
  | tok : LToken → LexErr
  | msg : String → LexErr
deriving DecidableEq, Repr

/-- The default `unknownhandler` (src/jsparser.js lines 305-307,
src/stringlexer.js lines 49-51): throw the unknown token. -/
def defaultUH (t : LToken) : Except LexErr LToken := .error (.tok t)

@[simp] theorem except_ok_bind {α β ε : Type} (a : α) (f : α → Except ε β) :
    (Except.ok a >>= f) = f a := rfl

@[simp] theorem except_error_bind {α β ε : Type} (e : ε) (f : α → Except ε β) :
    ((Except.error e : Except ε α) >>= f) = Except.error e := rfl

@[simp] theorem except_map_ok {α β ε : Type} (f : α → β) (a : α) :
    (f <$> (Except.ok a : Except ε α)) = Except.ok (f a) := rfl

@[simp] theorem except_map_error {α β ε : Type} (f : α → β) (e : ε) :
    (f <$> (Except.error e : Except ε α)) = Except.error e := rfl

@[simp] theorem except_pure {α ε : Type} (a : α) :
    (pure a : Except ε α) = Except.ok a := rfl

/-- JS `str.slice(a, b)` for `0 ≤ a ≤ b`: the characters in `[a, b)`. -/
def jsSlice (s : String) (a b : Nat) : String :=
  ((s.toList.drop a).take (b - a)).asString

/-- JS truthiness of a capture group, as tested by
`m.slice(1).findIndex((x) => !!x)`: `undefined` and the empty string are
falsy. -/
def truthyGroup : Option String → Bool
  | some s => !s.isEmpty
  | none => false

/-- `tokennames[m.slice(1).findIndex((x) => !!x)]`: the name of the first
truthy capture group, `none` when there is no such group (JS indexing with
`-1` yields `undefined`) or the index is past the name list. -/
def classify (tokennames : List String) (m : RMatch) : Option String :=
  (m.groups.findIdx? truthyGroup).bind fun i => tokennames[i]?

/-- How JS prints a possibly-undefined name inside a template literal. -/
def nameStr : Option String → String
  | some n => n
  | none => "undefined"

/-- The string thrown by src/jsparser.js lines 383-385 on a zero-length
match. -/
def zeroLenMsg (name : Option String) (i : Nat) : String :=
  "token " ++ nameStr name ++ " succeeded without consuming any input at character "
    ++ toString i

/-- The unknown-span token handed to the `unknownhandler`: name
`"unknown"`, the intervening substring, and its offset. -/
def gapTok (str : String) (lastmatch upto : Nat) : LToken :=
  ⟨some "unknown", jsSlice str lastmatch upto, lastmatch⟩

/-- The per-match step of the src/jsparser.js tokenizer (lines 371-386):
classify the match; unless it is whitespace being dropped, push the token —
and then throw the configuration error if the match consumed nothing. -/
def tokstepJ (tokennames : List String) (keepws : Bool) (m : RMatch) :
    Except LexErr (List LToken) :=
  let name := classify tokennames m
  if name ≠ some "whitespace" ∨ keepws then
    if m.matched.length == 0 then .error (.msg (zeroLenMsg name m.index))
    else .ok [⟨name, m.matched, m.index⟩]
  else .ok []

/-- The per-match step of the src/stringlexer.js tokenizer (lines 109-120):
identical except that there is no zero-length guard, so a zero-length token
is emitted like any other. -/
def tokstepS (tokennames : List String) (keepws : Bool) (m : RMatch) : List LToken :=
  let name := classify tokennames m
  if name ≠ some "whitespace" ∨ keepws then [⟨name, m.matched, m.index⟩]
  else []

/-- The tokens contributed ahead of a position `upto`: when the previous
match ended strictly before it, the unknown span in between goes through
the handler (src/jsparser.js lines 359-370 and 390-398). -/
def gapTokens (uh : LToken → Except LexErr LToken) (str : String)
    (lastmatch upto : Nat) : Except LexErr (List LToken) :=
  if lastmatch < upto then do
    let t ← uh (gapTok str lastmatch upto)
    pure [t]
  else pure []

/-- The src/jsparser.js tokenizer loop (lines 355-399) over the match list,
carrying `lastmatch`: handle any gap before the match, process the match,
continue after it, and finally handle any trailing unmatched suffix. -/
def tokloopJ (tokennames : List String) (keepws : Bool)
    (uh : LToken → Except LexErr LToken) (str : String) :
    Nat → List RMatch → Except LexErr (List LToken)
  | lastmatch, [] => gapTokens uh str lastmatch str.length
  | lastmatch, m :: ms => do
      let g ← gapTokens uh str lastmatch m.index
      let e ← tokstepJ tokennames keepws m
      let rest ← tokloopJ tokennames keepws uh str (m.index + m.matched.length) ms
      pure (g ++ (e ++ rest))

/-- The src/stringlexer.js tokenizer loop (lines 93-134): identical to
`tokloopJ` but with the unguarded per-match step. -/
def tokloopS (tokennames : List String) (keepws : Bool)
    (uh : LToken → Except LexErr LToken) (str : String) :
    Nat → List RMatch → Except LexErr (List LToken)
  | lastmatch, [] => gapTokens uh str lastmatch str.length
  | lastmatch, m :: ms => do
      let g ← gapTokens uh str lastmatch m.index
      let rest ← tokloopS tokennames keepws uh str (m.index + m.matched.length) ms
      pure (g ++ (tokstepS tokennames keepws m ++ rest))

/-- A definition value in the variadic Lexer of src/jsparser.js: after
`makedef`, either a string (a literal's escaped form, a raw string pattern,
or a RegExp's `source`) or the boolean `false` of a suppressed definition
such as `{whitespace: false}`. -/
inductive JVal where
  | jstr : String → JVal
  | jfalse : JVal
deriving DecidableEq, Repr

/-- JS truthiness of a definition value, as tested by `if (v)` in `compile`
(src/jsparser.js line 347): `false` and the empty string are falsy. -/
def truthy : JVal → Bool
  | .jstr s => !s.isEmpty
  | .jfalse => false

/-- The character class `[()*+?-[\]\\^${}|/]` of `escaped`
(src/jsparser.js lines 248-250); note `?-[` is a character range. -/
def escChar (c : Char) : Bool :=
  c == '(' || c == ')' || c == '*' || c == '+' || ('?' ≤ c && c ≤ '[') ||
    c == ']' || c == '\\' || c == '^' || c == '$' || c == '\x7b' || c == '\x7d' ||
    c == '|' || c == '/'

/-- `escaped` (src/jsparser.js lines 248-250): backslash-escape the regex
metacharacters of a literal string. -/
def escaped (s : String) : String :=
  (s.toList.flatMap fun c => if escChar c then ['\\', c] else [c]).asString

/-- A definition as supplied to the variadic Lexer: a bare literal string,
or a `{name: value}` object (a RegExp value is represented by its
`source`). -/
inductive DefIn where
  | lit : String → DefIn
  | named : String → JVal → DefIn
deriving DecidableEq, Repr

/-- `makedef` (src/jsparser.js lines 281-291): a bare string becomes
`[string, escaped(string)]`; an object becomes its sole `[key, value]` pair
with a RegExp value replaced by its source (object string values are kept
raw). -/
def makedef : DefIn → String × JVal
  | .lit s => (s, .jstr (escaped s))
  | .named n v => (n, v)

/-- `findtoken` (src/jsparser.js lines 293-295): `findIndex` on the
definition names, `-1` when absent. -/
def findtoken (defs : List (String × JVal)) (name : String) : Int :=
  match defs.findIdx? (fun d => d.1 == name) with
  | some i => (i : Int)
  | none => -1

/-- The Lexer constructor (src/jsparser.js lines 272-279): map the supplied
definitions through `makedef`, then inject the default whitespace pattern
only when no definition — truthy or not — is already named `whitespace`. -/
def lexerInit (ds : List DefIn) : List (String × JVal) :=
  let defs := ds.map makedef
  if findtoken defs "whitespace" == -1 then defs ++ [("whitespace", .jstr "[ \r\n]+")]
  else defs

/-- The collection loop of `compile` (src/jsparser.js lines 342-351):
walk the definitions and, only for truthy values, record the name and the
parenthesised pattern for the union. -/
def compileDefs : List (String × JVal) → List String × List String
  | [] => ([], [])
  | (k, v) :: rest =>
      let (ns, ss) := compileDefs rest
      if truthy v then
        (k :: ns, ("(" ++ (match v with | .jstr s => s | .jfalse => "") ++ ")") :: ss)
      else (ns, ss)

/-- Claim C6 (evaluation at the failing input): a zero-length scanner match
— here the sole definition matching the empty string at offset 0 of the
empty input — makes the src/stringlexer.js tokenizer return normally with a
zero-length token in its output, while the src/jsparser.js tokenizer aborts
with the configuration-error string on the thrown channel. -/
theorem zero_length_divergence :
    tokloopS ["num"] false defaultUH "" 0 [⟨0, "", [some ""]⟩] = .ok [⟨none, "", 0⟩] ∧
    tokloopJ ["num"] false defaultUH "" 0 [⟨0, "", [some ""]⟩] =
      .error (.msg (zeroLenMsg none 0)) := by
  constructor <;> rfl

/-- Claim C7: whenever a gap separates the end of the previous match from
the start of the next (or an unmatched suffix trails the last match), the
intervening substring is passed to the unknown-span handler as a token named
"unknown" carrying its offset; the handler's returned token is appended to
the output in place, and the default handler aborts tokenization by raising
the unknown token as the error. -/
theorem unknown_span_spec (tn : List String) (kw : Bool) (str : String)
    (lm : Nat) (m : RMatch) (ms : List RMatch)
    (uh : LToken → Except LexErr LToken) :
    (lm < m.index →
      tokloopJ tn kw defaultUH str lm (m :: ms) = .error (.tok (gapTok str lm m.index)) ∧
      (∀ t', uh (gapTok str lm m.index) = .ok t' →
        tokloopJ tn kw uh str lm (m :: ms) =
          (tokstepJ tn kw m).bind fun e =>
            (tokloopJ tn kw uh str (m.index + m.matched.length) ms).map
              fun rest => t' :: (e ++ rest))) ∧
    (lm < str.length →
      tokloopJ tn kw defaultUH str lm [] = .error (.tok (gapTok str lm str.length)) ∧
      (∀ t', uh (gapTok str lm str.length) = .ok t' →
        tokloopJ tn kw uh str lm [] = .ok [t'])) := by
  constructor
  · intro h
    constructor
    · simp [tokloopJ, gapTokens, h, defaultUH, Except.bind]
    · intro t' ht'
      simp only [tokloopJ, gapTokens, if_pos h, ht']
      cases he : tokstepJ tn kw m with
      | error e => simp [he, Except.bind]
      | ok e =>
          cases hr : tokloopJ tn kw uh str (m.index + m.matched.length) ms with
          | error e2 => simp [he, hr, Except.bind, Except.map]
          | ok rest => simp [he, hr, Except.bind, Except.map]
  · intro h
    constructor
    · simp [tokloopJ, gapTokens, h, defaultUH, Except.bind]
    · intro t' ht'
      simp [tokloopJ, gapTokens, h, ht', Except.bind]

/-- The unknown-span handler of the csv example (src/tests/csv.js): rename
the span and return it as a token. -/
def uhW : LToken → Except LexErr LToken := fun t => .ok { t with name := some "unquoted" }

theorem unknown_span_spec_witness :
    tokloopJ ["b"] false defaultUH "ab" 0 [⟨1, "b", [some "b"]⟩] =
      .error (.tok ⟨some "unknown", "a", 0⟩) ∧
    tokloopJ ["b"] false uhW "ab" 0 [⟨1, "b", [some "b"]⟩] =
      .ok [⟨some "unquoted", "a", 0⟩, ⟨some "b", "b", 1⟩] ∧
    tokloopJ ["b"] false defaultUH "ab" 0 [] = .error (.tok ⟨some "unknown", "ab", 0⟩) ∧
    tokloopJ ["b"] false uhW "ab" 0 [] = .ok [⟨some "unquoted", "ab", 0⟩] :=
  ⟨((unknown_span_spec ["b"] false "ab" 0 ⟨1, "b", [some "b"]⟩ [] uhW).1
      (by decide)).1,
   (((unknown_span_spec ["b"] false "ab" 0 ⟨1, "b", [some "b"]⟩ [] uhW).1
      (by decide)).2 ⟨some "unquoted", "a", 0⟩ rfl).trans rfl,
   ((unknown_span_spec ["b"] false "ab" 0 ⟨1, "b", [some "b"]⟩ [] uhW).2
      (by decide)).1,
   ((unknown_span_spec ["b"] false "ab" 0 ⟨1, "b", [some "b"]⟩ [] uhW).2
      (by decide)).2 ⟨some "unquoted", "ab", 0⟩ rfl⟩

/-- Every token of a successful default-handler tokenizer run is named by
the compiled token-name list: gaps abort under the default handler, and a
match only ever emits a name looked up in `tokennames`. -/
theorem tokloopJ_names (tn : List String) (kw : Bool) (str : String)
    (ms : List RMatch) :
    ∀ lm toks, tokloopJ tn kw defaultUH str lm ms = .ok toks →
      ∀ t ∈ toks, ∀ n, t.name = some n → n ∈ tn := by
  induction ms with
  | nil =>
      intro lm toks h t ht n hn
      by_cases hg : lm < str.length
      · simp [tokloopJ, gapTokens, hg, defaultUH, Except.bind] at h
      · simp [tokloopJ, gapTokens, hg] at h
        subst h
        simp at ht
  | cons m ms ih =>
      intro lm toks h t ht n hn
      by_cases hg : lm < m.index
      · simp [tokloopJ, gapTokens, hg, defaultUH, Except.bind] at h
      · simp only [tokloopJ, gapTokens, if_neg hg] at h
        cases he : tokstepJ tn kw m with
        | error e => simp [he, Except.bind] at h
        | ok e =>
            cases hr : tokloopJ tn kw defaultUH str (m.index + m.matched.length) ms with
            | error e2 => simp [he, hr, Except.bind] at h
            | ok rest =>
                simp [he, hr, Except.bind, pure, Except.pure] at h
                subst h
                simp at ht
                rcases ht with ht | ht
                · -- the token came from the match step
                  unfold tokstepJ at he
                  by_cases hw : classify tn m ≠ some "whitespace" ∨ kw
                  · rw [if_pos hw] at he
                    by_cases hz : m.matched.length == 0
                    · simp [hz] at he
                    · simp [hz] at he
                      subst he
                      simp at ht
                      subst ht
                      simp at hn
                      unfold classify at hn
                      cases hf : m.groups.findIdx? truthyGroup with
                      | none => simp [hf] at hn
                      | some i =>
                          simp [hf] at hn
                          exact List.getElem?_mem hn
                  · rw [if_neg hw] at he
                    cases he
                    simp at ht
                · exact ih (m.index + m.matched.length) rest hr t ht n hn

/-- Claim C10: a falsy-valued definition such as `whitespace: false` counts
as a definition of its name, so the constructor injects no default
whitespace pattern; yet `compile` excludes every falsy-valued definition
from the collected token names and union pattern, so a scanner run under the
default handler never emits a token for such a name. -/
theorem falsy_definition_spec :
    lexerInit [.named "whitespace" .jfalse] = [("whitespace", .jfalse)] ∧
    (∀ defs : List (String × JVal),
      (compileDefs defs).1 = (defs.filter fun d => truthy d.2).map Prod.fst) ∧
    compileDefs (lexerInit [.named "whitespace" .jfalse]) = ([], []) ∧
    (∀ tn kw str lm ms toks, tokloopJ tn kw defaultUH str lm ms = .ok toks →
      "whitespace" ∉ tn → ∀ t ∈ toks, t.name ≠ some "whitespace") := by
  refine ⟨rfl, ?_, rfl, ?_⟩
  · intro defs
    induction defs with
    | nil => rfl
    | cons d rest ih =>
        obtain ⟨k, v⟩ := d
        by_cases hv : truthy v
        · simp [compileDefs, hv, List.filter, ih]
        · simp [compileDefs, hv, List.filter, ih]
  · intro tn kw str lm ms toks h hws t ht hn
    exact hws (tokloopJ_names tn kw str ms lm toks h t ht "whitespace" hn)

theorem falsy_definition_spec_witness :
    lexerInit [.named "whitespace" .jfalse] = [("whitespace", .jfalse)] ∧
    (compileDefs [("whitespace", JVal.jfalse)]).1 =
      ([("whitespace", JVal.jfalse)].filter fun d => truthy d.2).map Prod.fst ∧
    (⟨some "num", "1", 0⟩ : LToken).name ≠ some "whitespace" :=
  ⟨falsy_definition_spec.1,
   falsy_definition_spec.2.1 [("whitespace", JVal.jfalse)],
   falsy_definition_spec.2.2.2 ["num"] false "1" 0 [⟨0, "1", [some "1"]⟩]
     [⟨some "num", "1", 0⟩] rfl (by decide) ⟨some "num", "1", 0⟩ (by simp)⟩

end JSParser
